import Mathlib

/-!
Verification of the configuration-resolution and trust engine of `json_env`
(src/main.rs), as a shallow embedding in Lean.

JSON values (`serde_json::Value`) are modelled by the inductive `Value` below;
numbers are modelled as integers (the canonical decimal text of an integer
number is its usual decimal representation, as produced by serde).  File
system state for the trust store is modelled as `Option String` (the content
of `whitelist.json`, or `none` when the file does not exist).  The process
environment is threaded as an explicit list of `(name, value)` pairs.
-/

namespace JsonEnv

/-- Model of `serde_json::Value`. -/
inductive Value where
  | null : Value
  | bool (b : Bool) : Value
  | num (n : Int) : Value
  | str (s : String) : Value
  | arr (xs : List Value) : Value
  | obj (fields : List (String × Value)) : Value

/-- serde_json string escaping of a single character: quote and backslash get
a backslash, the five short control escapes are used where they exist, other
control characters are written as a lowercase hexadecimal escape. -/
def escapeChar (c : Char) : String :=
  if c = '"' then "\\\""
  else if c = '\\' then "\\\\"
  else if c = '\n' then "\\n"
  else if c = '\t' then "\\t"
  else if c = '\r' then "\\r"
  else if c = Char.ofNat 8 then "\\b"
  else if c = Char.ofNat 12 then "\\f"
  else if c.toNat < 32 then
    let hexDigit : Nat → String := fun n =>
      if n < 10 then String.mk [Char.ofNat (48 + n)]
      else String.mk [Char.ofNat (87 + n)]
    "\\u00" ++ hexDigit (c.toNat / 16) ++ hexDigit (c.toNat % 16)
  else String.mk [c]

/-- serde_json escaping of a full string body (without surrounding quotes). -/
def escapeString (s : String) : String :=
  s.data.foldr (fun c acc => escapeChar c ++ acc) ""

mutual

/-- Model of `serde_json`'s compact serialization `Value::to_string()`. -/
def Value.toJson : Value → String
  | Value.null => "null"
  | Value.bool true => "true"
  | Value.bool false => "false"
  | Value.num n => toString n
  | Value.str s => "\"" ++ escapeString s ++ "\""
  | Value.arr xs => "[" ++ Value.arrJson xs ++ "]"
  | Value.obj fs => "\x7b" ++ Value.objJson fs ++ "\x7d"

/-- Comma-separated serialization of array elements. -/
def Value.arrJson : List Value → String
  | [] => ""
  | [v] => Value.toJson v
  | v :: w :: vs => Value.toJson v ++ "," ++ Value.arrJson (w :: vs)

/-- Comma-separated serialization of object members. -/
def Value.objJson : List (String × Value) → String
  | [] => ""
  | [(k, v)] => "\"" ++ escapeString k ++ "\":" ++ Value.toJson v
  | (k, v) :: f :: fs =>
      "\"" ++ escapeString k ++ "\":" ++ Value.toJson v ++ "," ++ Value.objJson (f :: fs)

end

/-- Model of `Value::is_array`. -/
def Value.is_array : Value → Bool
  | Value.arr _ => true
  | _ => false

/-- Model of `Value::is_boolean`. -/
def Value.is_boolean : Value → Bool
  | Value.bool _ => true
  | _ => false

/-- Model of `Value::is_object`. -/
def Value.is_object : Value → Bool
  | Value.obj _ => true
  | _ => false

/-- Model of `Value::is_null`. -/
def Value.is_null : Value → Bool
  | Value.null => true
  | _ => false

/-- Model of `Value::is_number`. -/
def Value.is_number : Value → Bool
  | Value.num _ => true
  | _ => false

/-- Model of `Value::is_string`. -/
def Value.is_string : Value → Bool
  | Value.str _ => true
  | _ => false

/-- Model of `Value::as_str`. -/
def Value.as_str : Value → Option String
  | Value.str s => some s
  | _ => none

/-- The value-to-string coercion performed inside `add_values_to_map`
(src/main.rs lines 544-562): `val_str` starts as the empty string and is
reassigned by a chain of kind tests; for a string value, `as_str` is used so
that the quotes are not kept, every other kind uses `Value::to_string()`.
The `unwrap` on `as_str` is modelled by `Option.getD`, which in the guarded
branch is always in the `some` case. -/
def coerceValue (val : Value) : String :=
  let s0 := ""
  let s1 := if val.is_array then val.toJson else s0
  let s2 := if val.is_boolean then val.toJson else s1
  let s3 := if val.is_object then val.toJson else s2
  let s4 := if val.is_null then val.toJson else s3
  let s5 := if val.is_number then val.toJson else s4
  if val.is_string then (val.as_str.getD "") else s5

/-- The coercion table of the specification (section 4.4), written directly
from the specification text: strings unwrap to their literal content, every
other kind keeps its canonical JSON text. -/
def coerceSpec : Value → String
  | Value.str s => s
  | Value.null => "null"
  | Value.bool true => "true"
  | Value.bool false => "false"
  | Value.num n => toString n
  | Value.arr xs => (Value.arr xs).toJson
  | Value.obj fs => (Value.obj fs).toJson

/-- Helper for `rustReplace`: scan the character list, replacing every
non-overlapping occurrence of `pat` (left to right) by `rep`.  The fuel is
the length of the scanned list, which bounds the number of steps. -/
def rustReplaceAux (pat rep : List Char) : Nat → List Char → List Char
  | 0, s => s
  | Nat.succ _, [] => []
  | Nat.succ fuel, c :: rest =>
    if pat.isPrefixOf (c :: rest) && !pat.isEmpty then
      rep ++ rustReplaceAux pat rep fuel (rest.drop (pat.length - 1))
    else
      c :: rustReplaceAux pat rep fuel rest

/-- Model of Rust `str::replace(pat, rep)`: replace all non-overlapping
occurrences of `pat`, scanning left to right.  (For the empty pattern Rust
inserts `rep` at every boundary; this model leaves the string unchanged
instead, which is irrelevant here because every pattern used by the program
starts with a dollar sign and is therefore non-empty.) -/
def rustReplace (s pat rep : String) : String :=
  ⟨rustReplaceAux pat.data rep.data s.data.length s.data⟩

/-- Helper for `containsSubstring`: does `pat` occur in the list? -/
def containsSubChars (pat : List Char) : List Char → Bool
  | [] => pat.isEmpty
  | c :: rest => pat.isPrefixOf (c :: rest) || containsSubChars pat rest

/-- Model of Rust `str::contains(pat)` for a literal substring pattern. -/
def containsSubstring (s pat : String) : Bool :=
  containsSubChars pat.data s.data

/-- The expansion loop of `add_values_to_map` (src/main.rs lines 563-570),
with the process environment threaded explicitly in place of `env::vars()`:
`expanded_val` starts as a clone of `val_str`; for each environment pair the
guard tests `val_str` and, when it fires, reassigns `expanded_val` to
`val_str.replace(...)` — note that the replacement is applied to the original
`val_str`, not to the accumulated `expanded_val`, exactly as in the source. -/
def expandValue (valStr : String) (envVars : List (String × String)) : String :=
  envVars.foldl
    (fun expandedVal kv =>
      let envKeyDollar := "$" ++ kv.1
      if containsSubstring valStr envKeyDollar then
        rustReplace valStr envKeyDollar kv.2
      else
        expandedVal)
    valStr

/-- The accumulating `HashMap<String, String>` of `main`, modelled as an
association list where an insert shadows older entries for the same key. -/
abbrev EnvMap := List (String × String)

/-- Model of `HashMap::insert`: the new binding shadows any earlier binding
of the same key (lookup returns the most recent insert). -/
def insertVar (m : EnvMap) (k v : String) : EnvMap := (k, v) :: m

/-- Lookup in the modelled map: the most recently inserted binding wins. -/
def lookupVar (m : EnvMap) (k : String) : Option String :=
  (m.find? (fun p => p.1 == k)).map (fun p => p.2)

/-- Body of the inner member loop of `add_values_to_map` (src/main.rs lines
543-574): coerce the member value to a string, optionally expand it against
the process environment, and insert it under the member key. -/
def insertCoerced (shouldExpand : Bool) (envVars : List (String × String))
    (m2 : EnvMap) (kv : String × Value) : EnvMap :=
  let valStr := coerceValue kv.2
  if shouldExpand then
    insertVar m2 kv.1 (expandValue valStr envVars)
  else
    insertVar m2 kv.1 valStr

/-- Body of the outer loop of `add_values_to_map`: a value that is an object
has each of its members processed by `insertCoerced`; any other value is
skipped without effect. -/
def addOneValue (shouldExpand : Bool) (envVars : List (String × String))
    (m : EnvMap) (value : Value) : EnvMap :=
  match value with
  | Value.obj fields => fields.foldl (insertCoerced shouldExpand envVars) m
  | _ => m

/-- Model of `add_values_to_map` (src/main.rs lines 535-578): for each value
that is an object, coerce each member value to a string, optionally expand
it against the process environment, and insert it into the map.  Values that
are not objects are skipped without any effect. -/
def add_values_to_map (values : List Value) (shouldExpand : Bool)
    (envVars : List (String × String)) (strMap : EnvMap) : EnvMap :=
  values.foldl (addOneValue shouldExpand envVars) strMap

/-- Does some object node among `values` define the key `k`? -/
def definesKey (values : List Value) (k : String) : Bool :=
  values.any (fun v =>
    match v with
    | Value.obj fields => fields.any (fun kv => kv.1 == k)
    | _ => false)

/-- Outcome of opening, reading and extracting one configured source file,
the external collaborators (file system and json-path library) being
modelled by which branch was taken:
`openFail` — `File::open` failed; `readFail` — `read_to_string` failed;
`extractFail` — `parse_and_extract` returned an error (malformed JSON or
json-path); `extractOk vals` — extraction succeeded with the sequence of
matched nodes. -/
inductive SourceOutcome where
  | openFail : SourceOutcome
  | readFail : SourceOutcome
  | extractFail : SourceOutcome
  | extractOk (vals : List Value) : SourceOutcome

/-- Result of processing one source inside the loop of `main`: either the
program continues with an updated map, or the process terminates with the
given exit code. -/
inductive StepResult where
  | next (m : EnvMap) : StepResult
  | exited (code : Nat) : StepResult
deriving DecidableEq

/-- Exit code of `clap`'s `Error::exit`, used by every `cmd.error(...).exit()`
call in `main`. -/
def clapErrorExit : Nat := 2

/-- The body of the per-file loop of `main` (src/main.rs lines 222-273).  In
every error branch the source first tests `args.silent`: when silent it
executes `return`, which ends `main` normally — process exit code 0 — and
otherwise calls `cmd.error(...).exit()`, which terminates with the clap
error exit code.  A successful non-empty extraction feeds
`add_values_to_map` and the loop continues. -/
def processSource (silent shouldExpand : Bool) (envVars : List (String × String))
    (m : EnvMap) (oc : SourceOutcome) : StepResult :=
  match oc with
  | SourceOutcome.openFail =>
      if silent then StepResult.exited 0 else StepResult.exited clapErrorExit
  | SourceOutcome.readFail =>
      if silent then StepResult.exited 0 else StepResult.exited clapErrorExit
  | SourceOutcome.extractFail =>
      if silent then StepResult.exited 0 else StepResult.exited clapErrorExit
  | SourceOutcome.extractOk vals =>
      if vals.isEmpty then
        if silent then StepResult.exited 0 else StepResult.exited clapErrorExit
      else
        StepResult.next (add_values_to_map vals shouldExpand envVars m)

/-- The whole per-file loop of `main`, over the outcomes of the configured
sources in list order; the final map is the one handed to `--export` or to
`execute`. -/
def runSources (silent shouldExpand : Bool) (envVars : List (String × String)) :
    EnvMap → List SourceOutcome → StepResult
  | m, [] => StepResult.next m
  | m, oc :: rest =>
    match processSource silent shouldExpand envVars m oc with
    | StepResult.next m2 => runSources silent shouldExpand envVars m2 rest
    | StepResult.exited c => StepResult.exited c

/-- JSON insignificant whitespace. -/
def isJsonWs (c : Char) : Bool :=
  c == ' ' || c == '\n' || c == '\t' || c == '\r'

/-- Skip insignificant whitespace. -/
def skipWs (l : List Char) : List Char := l.dropWhile isJsonWs

/-- Decode a single-character JSON escape (the character after a backslash).
Hexadecimal escapes are not modelled; none of the contents this development
evaluates the parser on use them, and on unsupported input the model fails
to parse just as it refuses other malformed input. -/
def escDecode (e : Char) : Option Char :=
  if e == '"' then some '"'
  else if e == '\\' then some '\\'
  else if e == '/' then some '/'
  else if e == 'n' then some '\n'
  else if e == 't' then some '\t'
  else if e == 'r' then some '\r'
  else if e == 'b' then some (Char.ofNat 8)
  else if e == 'f' then some (Char.ofNat 12)
  else none

/-- Parse the body of a JSON string after the opening quote, returning the
decoded characters and the remaining input after the closing quote.  Raw
control characters are rejected, as serde_json rejects them. -/
def parseStringBody : Nat → List Char → Option (List Char × List Char)
  | 0, _ => none
  | Nat.succ _, [] => none
  | Nat.succ fuel, c :: rest =>
    if c == '"' then some ([], rest)
    else if c == '\\' then
      match rest with
      | [] => none
      | e :: rest2 =>
        match escDecode e with
        | none => none
        | some ch => (parseStringBody fuel rest2).map (fun p => (ch :: p.1, p.2))
    else if c.toNat < 32 then none
    else (parseStringBody fuel rest).map (fun p => (c :: p.1, p.2))

/-- Parse one or more comma-separated JSON strings followed by the closing
bracket of the array. -/
def parseElems : Nat → List Char → Option (List String × List Char)
  | 0, _ => none
  | Nat.succ fuel, l =>
    match skipWs l with
    | '"' :: rest =>
      match parseStringBody (rest.length + 1) rest with
      | none => none
      | some (s, rest2) =>
        match skipWs rest2 with
        | ',' :: rest3 =>
          match parseElems fuel rest3 with
          | none => none
          | some (ss, rest4) => some (String.mk s :: ss, rest4)
        | ']' :: rest3 => some ([String.mk s], rest3)
        | _ => none
    | _ => none

/-- Model of `serde_json::from_str::<Vec<String>>`: the content must be a
single JSON array of strings, with nothing but whitespace around it. -/
def parseStringList (content : String) : Option (List String) :=
  match skipWs content.data with
  | '[' :: rest =>
    match skipWs rest with
    | ']' :: rest2 => if (skipWs rest2).isEmpty then some [] else none
    | _ =>
      match parseElems (rest.length + 1) rest with
      | none => none
      | some (ss, rest2) => if (skipWs rest2).isEmpty then some ss else none
  | _ => none

/-- Model of `serde_json::to_string::<Vec<String>>`: compact serialization
of a list of strings. -/
def serializeStringList (l : List String) : String :=
  "[" ++ String.intercalate "," (l.map (fun s => "\"" ++ escapeString s ++ "\"")) ++ "]"

/-- Observable outcome of one `whitelist` call (besides the store state):
which branch of the function ran. -/
inductive TrustOutcome where
  | createdNew : TrustOutcome
  | parseFailed : TrustOutcome
  | alreadyTrusted : TrustOutcome
  | writeFailed : TrustOutcome
deriving DecidableEq

/-- Model of `whitelist` (src/main.rs lines 289-333), the trust operation.
The store state is the content of `whitelist.json` (`none` when the file
does not exist); the per-user config directory is assumed creatable.
Branches, following the source:
if `File::open` fails, the file is created and the serialized one-element
list is written through the writable handle from `File::create`
(`createdNew`); if the content does not deserialize as `Vec<String>` the
function returns silently (`parseFailed`); if the path is already present it
prints "Already whitelisted" and performs no write (`alreadyTrusted`);
otherwise the source pushes the path, serializes the grown list and calls
`write_all` on the handle it got from `File::open` — but `File::open` opens
read-only, so this write fails (EBADF) and the file keeps its old content
(`writeFailed`). -/
def whitelistOp (store : Option String) (path : String) : Option String × TrustOutcome :=
  match store with
  | none =>
      (some (serializeStringList [path]), TrustOutcome.createdNew)
  | some contents =>
      match parseStringList contents with
      | none => (some contents, TrustOutcome.parseFailed)
      | some l =>
        if l.contains path then
          (some contents, TrustOutcome.alreadyTrusted)
        else
          let _writtenJson := serializeStringList (l ++ [path])
          (some contents, TrustOutcome.writeFailed)

/-- Model of `is_whitelisted` (src/main.rs lines 335-354): false when the
store file does not exist, false when its content does not deserialize as a
list of strings, and otherwise a linear scan comparing each stored path with
the queried one. -/
def is_whitelisted (store : Option String) (path : String) : Bool :=
  match store with
  | none => false
  | some contents =>
    match parseStringList contents with
    | none => false
    | some l => l.contains path

/-- The content `install_shell_completion` writes when it creates the store
file (src/main.rs line 485). -/
def installWhitelistContent : String := "\x7b\"items\":[]\x7d"

/-! ## Helper lemmas -/

/-- A fold whose step function only prepends entries in front of its
accumulator distributes over the accumulator. -/
theorem foldl_append_law {α : Type} (f : EnvMap → α → EnvMap)
    (hf : ∀ m x, f m x = f [] x ++ m) (l : List α) :
    ∀ m : EnvMap, l.foldl f m = l.foldl f [] ++ m := by
  induction l with
  | nil => intro m; simp
  | cons x xs ih =>
    intro m
    simp only [List.foldl_cons]
    rw [ih (f m x), ih (f [] x), hf m x, List.append_assoc]

/-- `insertCoerced` only prepends in front of its accumulator. -/
theorem insertCoerced_append (e : Bool) (env : List (String × String)) :
    ∀ (m : EnvMap) (kv : String × Value),
      insertCoerced e env m kv = insertCoerced e env [] kv ++ m := by
  intro m kv
  cases e <;> rfl

/-- `addOneValue` only prepends in front of its accumulator. -/
theorem addOneValue_append (e : Bool) (env : List (String × String)) :
    ∀ (m : EnvMap) (v : Value),
      addOneValue e env m v = addOneValue e env [] v ++ m := by
  intro m v
  cases v with
  | obj fields => exact foldl_append_law _ (insertCoerced_append e env) fields m
  | null => rfl
  | bool b => rfl
  | num n => rfl
  | str s => rfl
  | arr xs => rfl

/-- `add_values_to_map` only prepends in front of its accumulator. -/
theorem add_values_append (e : Bool) (env : List (String × String))
    (vals : List Value) (m : EnvMap) :
    add_values_to_map vals e env m = add_values_to_map vals e env [] ++ m :=
  foldl_append_law _ (addOneValue_append e env) vals m

/-- Lookup in an appended map: the front map wins when it binds the key. -/
theorem lookupVar_append (a b : EnvMap) (k : String) :
    lookupVar (a ++ b) k =
      match lookupVar a k with
      | some v => some v
      | none => lookupVar b k := by
  induction a with
  | nil => simp [lookupVar]
  | cons p a ih =>
    simp only [List.cons_append, lookupVar, List.find?_cons]
    cases hpk : (p.1 == k) with
    | true => rfl
    | false => simpa [lookupVar] using ih

/-- If some member of `fields` has key `k`, the inner member fold binds `k`. -/
theorem lookup_insertCoerced_fold (e : Bool) (env : List (String × String))
    (k : String) :
    ∀ fields : List (String × Value),
      fields.any (fun kv => kv.1 == k) = true →
      (lookupVar (fields.foldl (insertCoerced e env) []) k).isSome = true := by
  intro fields
  induction fields with
  | nil => intro h; simp at h
  | cons kv fs ih =>
    intro h
    rw [show (kv :: fs).foldl (insertCoerced e env) []
          = fs.foldl (insertCoerced e env) (insertCoerced e env [] kv) from rfl,
        foldl_append_law _ (insertCoerced_append e env) fs (insertCoerced e env [] kv),
        lookupVar_append]
    cases hA : lookupVar (fs.foldl (insertCoerced e env) []) k with
    | some v => simp
    | none =>
      simp only [List.any_cons, Bool.or_eq_true] at h
      cases h with
      | inr hfs =>
        have := ih hfs
        rw [hA] at this
        simp at this
      | inl hkv =>
        cases e <;> simp [insertCoerced, insertVar, lookupVar, List.find?, hkv]

/-- If some object among `vals` defines key `k`, the merged map binds `k`. -/
theorem lookup_isSome_of_definesKey (e : Bool) (env : List (String × String))
    (k : String) :
    ∀ vals : List Value,
      definesKey vals k = true →
      (lookupVar (add_values_to_map vals e env []) k).isSome = true := by
  intro vals
  induction vals with
  | nil => intro h; simp [definesKey] at h
  | cons v rest ih =>
    intro h
    rw [show add_values_to_map (v :: rest) e env []
          = add_values_to_map rest e env (addOneValue e env [] v) from rfl,
        add_values_append e env rest (addOneValue e env [] v),
        lookupVar_append]
    cases hA : lookupVar (add_values_to_map rest e env []) k with
    | some w => simp
    | none =>
      simp only [definesKey, List.any_cons, Bool.or_eq_true] at h
      cases h with
      | inr hrest =>
        have := ih (by simpa [definesKey] using hrest)
        rw [hA] at this
        simp at this
      | inl hv =>
        cases v with
        | obj fields => exact lookup_insertCoerced_fold e env k fields hv
        | null => simp at hv
        | bool b => simp at hv
        | num n => simp at hv
        | str s => simp at hv
        | arr xs => simp at hv

/-- A list of values none of which is an object contributes nothing. -/
theorem add_values_skips_nonobjects (e : Bool) (env : List (String × String)) :
    ∀ vals : List Value, vals.all (fun v => ! v.is_object) = true →
      ∀ m : EnvMap, add_values_to_map vals e env m = m := by
  intro vals
  induction vals with
  | nil => intro _ m; rfl
  | cons v vs ih =>
    intro h m
    simp only [List.all_cons, Bool.and_eq_true] at h
    obtain ⟨hv, hvs⟩ := h
    have hstep : addOneValue e env m v = m := by
      cases v <;> first | rfl | simp [Value.is_object] at hv
    calc add_values_to_map (v :: vs) e env m
        = add_values_to_map vs e env (addOneValue e env m v) := rfl
      _ = add_values_to_map vs e env m := by rw [hstep]
      _ = m := ih hvs m

/-! ## Claim theorems -/

/-- C6: coercion is a total deterministic function over all JSON value
kinds: the chained kind tests of `add_values_to_map` compute exactly the
coercion table of the specification — a string coerces to its literal
unquoted content, numbers, booleans and null coerce to their canonical
decimal, true/false and null text, arrays and objects coerce to their
canonical JSON re-serialization. -/
theorem coerce_total_matches_spec : ∀ v : Value, coerceValue v = coerceSpec v := by
  intro v
  cases v with
  | null => rfl
  | bool b => cases b <;> rfl
  | num n => rfl
  | str s => rfl
  | arr xs => rfl
  | obj fs => rfl

/-- C2: the expansion loop reassigns from the original string on every
iteration, so when two distinct environment variables both occur in one
coerced string only the substitution of the last matching variable survives:
with environment FOO=a, BAR=b, the string using both resolves to "$FOO-b",
not to the fully substituted "a-b" the claim requires. -/
theorem expand_keeps_only_last_substitution :
    expandValue "$FOO-$BAR" [("FOO", "a"), ("BAR", "b")] = "$FOO-b" ∧
    expandValue "$FOO-$BAR" [("FOO", "a"), ("BAR", "b")] ≠ "a-b" := by
  constructor
  · decide
  · decide

/-- C4: the same input string and the same environment presented in two
different iteration orders produce different expansion results, although
neither of the names A and B is a literal substring of the other — the
expansion result is not independent of the iteration order. -/
theorem expand_result_depends_on_iteration_order :
    [("A", "1"), ("B", "2")].Perm [("B", "2"), ("A", "1")] ∧
    containsSubstring "A" "B" = false ∧
    containsSubstring "B" "A" = false ∧
    expandValue "$A.$B" [("A", "1"), ("B", "2")] = "$A.2" ∧
    expandValue "$A.$B" [("B", "2"), ("A", "1")] = "1.$B" ∧
    expandValue "$A.$B" [("A", "1"), ("B", "2")] ≠
      expandValue "$A.$B" [("B", "2"), ("A", "1")] := by
  refine ⟨?_, ?_, ?_, ?_, ?_, ?_⟩ <;> decide

/-- C1 counterexample: in silent mode a config file that cannot be opened
terminates the program with exit status 0 — a success exit, not the
non-zero exit the claim requires. -/
theorem silent_open_error_exits_zero :
    processSource true false [] [] SourceOutcome.openFail = StepResult.exited 0 := by
  decide

/-- C1 (amended): in silent mode every fatal resolution error of the
config-reading loop (open failure, read failure, JSON or json-path failure,
extraction matching nothing) suppresses the diagnostic but terminates the
program with exit status 0, i.e. as a success; without silent mode the same
errors exit with the non-zero clap error code. -/
theorem silent_error_exit_codes (shouldExpand : Bool)
    (envVars : List (String × String)) (m : EnvMap) (e : SourceOutcome)
    (h : e = SourceOutcome.openFail ∨ e = SourceOutcome.readFail ∨
         e = SourceOutcome.extractFail ∨ e = SourceOutcome.extractOk []) :
    processSource true shouldExpand envVars m e = StepResult.exited 0 ∧
    processSource false shouldExpand envVars m e = StepResult.exited clapErrorExit := by
  rcases h with h | h | h | h <;> subst h <;> exact ⟨rfl, rfl⟩

/-- C1 witness: the amended statement instantiated at a concrete read
failure. -/
theorem silent_error_exit_codes_witness :
    processSource true false [] [] SourceOutcome.readFail = StepResult.exited 0 ∧
    processSource false false [] [] SourceOutcome.readFail = StepResult.exited clapErrorExit :=
  silent_error_exit_codes false [] [] SourceOutcome.readFail (Or.inr (Or.inl rfl))

/-- C3: on a store that already holds one entry, trusting a new path leaves
the store unchanged — the write goes to the read-only handle obtained from
File::open and fails — and the subsequent isTrusted query for that path
still returns false, not the true the claim requires. -/
theorem trust_append_never_persists :
    whitelistOp (some "[\"a\"]") "b" = (some "[\"a\"]", TrustOutcome.writeFailed) ∧
    is_whitelisted ((whitelistOp (some "[\"a\"]") "b").1) "b" = false := by
  constructor
  · decide
  · decide

/-- C8: on a pre-existing (empty-array) store, trusting the same path twice
leaves the persisted record with zero entries for it, not exactly one,
because the append is never persisted; the other half of the claim does
hold: a path already present is reported as already trusted and nothing is
written. -/
theorem trust_twice_keeps_zero_entries :
    (whitelistOp ((whitelistOp (some "[]") "p").1) "p").1 = some "[]" ∧
    ((parseStringList "[]").getD []).count "p" = 0 ∧
    whitelistOp (some "[\"p\"]") "p" = (some "[\"p\"]", TrustOutcome.alreadyTrusted) := by
  refine ⟨?_, ?_, ?_⟩ <;> decide

/-- C9: isTrusted returns false — and in particular never errors, being a
total boolean function — whenever the store file does not exist, and for
every path that is not among the paths recorded in the store. -/
theorem untrusted_path_not_whitelisted (store : Option String) (path : String)
    (h : ∀ contents, store = some contents →
        ∀ l, parseStringList contents = some l → path ∉ l) :
    is_whitelisted store path = false := by
  cases store with
  | none => rfl
  | some contents =>
    cases hp : parseStringList contents with
    | none => simp [is_whitelisted, hp]
    | some l =>
      have hmem := h contents rfl l hp
      simp [is_whitelisted, hp, List.contains, List.elem_iff, hmem]

/-- C9 witness: the theorem instantiated at a missing store file and at a
store holding only a different path. -/
theorem untrusted_path_not_whitelisted_witness :
    is_whitelisted none "y" = false ∧ is_whitelisted (some "[\"x\"]") "y" = false :=
  ⟨untrusted_path_not_whitelisted none "y" (fun _ hc => Option.noConfusion hc),
   untrusted_path_not_whitelisted (some "[\"x\"]") "y" (by
      intro contents hc l hp
      injection hc with hc1
      subst hc1
      have he : parseStringList "[\"x\"]" = some ["x"] := by decide
      rw [he] at hp
      injection hp with hp1
      subst hp1
      decide)⟩

/-- C10: whenever the store file exists but its content does not parse as a
bare JSON array of strings, isTrusted returns false for every path, without
erroring. -/
theorem unparsable_store_never_trusted (content : String) (path : String)
    (h : parseStringList content = none) :
    is_whitelisted (some content) path = false := by
  simp [is_whitelisted, h]

/-- C10 witness: the theorem instantiated at the exact content
install_shell_completion writes when it creates the store file. -/
theorem unparsable_store_never_trusted_witness :
    parseStringList installWhitelistContent = none ∧
    is_whitelisted (some installWhitelistContent) "p" = false :=
  ⟨by decide, unparsable_store_never_trusted installWhitelistContent "p" (by decide)⟩

/-- C5 counterexample: an extraction that matched one node which is a bare
number — zero usable object nodes — is not an error: the loop continues with
an unchanged (here empty) environment map instead of failing. -/
theorem nonobject_extraction_not_an_error :
    processSource false false [] [] (SourceOutcome.extractOk [Value.num 5]) =
      StepResult.next [] := rfl

/-- C5 (amended): an extraction whose path expression matches nothing is a
configuration error (silent exit 0 or clap error exit), and it is distinct
from matching an empty object, which proceeds without error; but an
extraction matching only non-object nodes is not an error — those nodes are
silently skipped and the map is left unchanged. -/
theorem empty_match_is_error_nonobjects_skipped (silent shouldExpand : Bool)
    (envVars : List (String × String)) (m : EnvMap) (vals : List Value)
    (hne : vals ≠ []) (hno : vals.all (fun v => ! v.is_object) = true) :
    processSource silent shouldExpand envVars m (SourceOutcome.extractOk []) =
      StepResult.exited (if silent then 0 else clapErrorExit) ∧
    processSource silent shouldExpand envVars m (SourceOutcome.extractOk [Value.obj []]) =
      StepResult.next m ∧
    processSource silent shouldExpand envVars m (SourceOutcome.extractOk vals) =
      StepResult.next m := by
  refine ⟨?_, ?_, ?_⟩
  · cases silent <;> rfl
  · rfl
  · obtain ⟨v, vs, rfl⟩ := List.exists_cons_of_ne_nil hne
    show StepResult.next (add_values_to_map (v :: vs) shouldExpand envVars m) =
      StepResult.next m
    exact congrArg StepResult.next
      (add_values_skips_nonobjects shouldExpand envVars (v :: vs) hno m)

/-- C5 witness: the amended statement instantiated at a singleton null
match. -/
theorem empty_match_is_error_nonobjects_skipped_witness :
    processSource false false [] [] (SourceOutcome.extractOk []) =
      StepResult.exited (if false then 0 else clapErrorExit) ∧
    processSource false false [] [] (SourceOutcome.extractOk [Value.obj []]) =
      StepResult.next [] ∧
    processSource false false [] [] (SourceOutcome.extractOk [Value.null]) =
      StepResult.next [] :=
  empty_match_is_error_nonobjects_skipped false false [] [] [Value.null]
    (by simp) rfl

/-- C7: when two sources are merged in list order and the later source
defines a key, the per-file loop succeeds and the final value of that key
is the one determined by the later source alone — whatever binding the
earlier source (or anything already in the map) gave the same key is
overwritten. -/
theorem later_source_overwrites (silent shouldExpand : Bool)
    (envVars : List (String × String)) (m : EnvMap)
    (vs1 vs2 : List Value) (k : String)
    (h2 : definesKey vs2 k = true) (hne1 : vs1 ≠ []) (hne2 : vs2 ≠ []) :
    ∃ final,
      runSources silent shouldExpand envVars m
          [SourceOutcome.extractOk vs1, SourceOutcome.extractOk vs2] =
        StepResult.next final ∧
      lookupVar final k = lookupVar (add_values_to_map vs2 shouldExpand envVars []) k := by
  obtain ⟨v1, t1, rfl⟩ := List.exists_cons_of_ne_nil hne1
  obtain ⟨v2, t2, rfl⟩ := List.exists_cons_of_ne_nil hne2
  refine ⟨add_values_to_map (v2 :: t2) shouldExpand envVars
      (add_values_to_map (v1 :: t1) shouldExpand envVars m), rfl, ?_⟩
  rw [add_values_append shouldExpand envVars (v2 :: t2)
        (add_values_to_map (v1 :: t1) shouldExpand envVars m),
      lookupVar_append]
  cases hA : lookupVar (add_values_to_map (v2 :: t2) shouldExpand envVars []) k with
  | some w => rfl
  | none =>
    have := lookup_isSome_of_definesKey shouldExpand envVars k (v2 :: t2) h2
    rw [hA] at this
    simp at this

/-- C7 witness: two concrete single-object sources both defining KEY. -/
theorem later_source_overwrites_witness :
    ∃ final,
      runSources false false [] []
          [SourceOutcome.extractOk [Value.obj [("KEY", Value.str "v1")]],
           SourceOutcome.extractOk [Value.obj [("KEY", Value.str "v2")]]] =
        StepResult.next final ∧
      lookupVar final "KEY" =
        lookupVar (add_values_to_map [Value.obj [("KEY", Value.str "v2")]] false []
          []) "KEY" :=
  later_source_overwrites false false [] []
    [Value.obj [("KEY", Value.str "v1")]] [Value.obj [("KEY", Value.str "v2")]]
    "KEY" rfl (by simp) (by simp)

end JsonEnv
